import Mathlib

/-!
Verification of the cross-organization aggregation module (`createMethods`:
`generalizedCollectionMethod`, `getCrossOrganizationMethod`,
`crossOrganizationCollection`).

The JavaScript/TypeScript source is shallowly embedded:
- option bags and cache-option bags become structures with `Option` fields,
  where `none` models an absent (or `undefined`) property;
- JS truthiness tests on numbers/strings are modelled explicitly
  (`0`, `""`, absent are falsy);
- callback errors that reject the promise and synchronous `throw`s are kept
  distinct (`JsError.rejected` vs `JsError.thrown`);
- the sequential `async.eachOfLimit(..., 1, ...)` / `async.eachLimit(..., 1, ...)`
  loops become structural recursion over lists, aborting at the first error,
  exactly as the limit-1 iteration does.
-/

namespace Portal

/-- JS truthiness for an optional number: absent and `0` are falsy. -/
def jsFalsyNat : Option Nat → Bool
  | none => true
  | some 0 => true
  | some (_ + 1) => false

/-- JS truthiness for an optional string: absent and `""` are falsy. -/
def jsFalsyToken : Option String → Bool
  | none => true
  | some s => s == ""

/-- One `Object.assign` step on a single property: a property present on the
source overwrites the target's, an absent source property leaves the target's. -/
def optAssign {α : Type} : Option α → Option α → Option α
  | tgt, none => tgt
  | _, some v => some v

/-- `Object.assign` on the open-ended (pass-through) part of an options bag:
source keys overwrite target keys, remaining target keys are kept. -/
def mergeExtras (tgt src : List (String × String)) : List (String × String) :=
  tgt.filter (fun p => (src.find? (fun q => q.fst == p.fst)).isNone) ++ src

/-- The options bag passed to collection methods.  Recognized keys of the
source are explicit fields; `extras` models arbitrary pass-through keys.
`maxAgeSeconds` / `backgroundRefresh` fields model those cache-policy keys
leaking into the options bag (the inner loop deletes them). -/
structure OptionsBag where
  org : Option String := none
  per_page : Option Nat := none
  team_id : Option Nat := none
  owner : Option String := none
  repo : Option String := none
  maxAgeSeconds : Option Nat := none
  backgroundRefresh : Option Bool := none
  extras : List (String × String) := []
deriving Repr, DecidableEq

/-- `Object.assign(target, source)` for options bags. -/
def assignOptions (tgt src : OptionsBag) : OptionsBag :=
  { org := optAssign tgt.org src.org
    per_page := optAssign tgt.per_page src.per_page
    team_id := optAssign tgt.team_id src.team_id
    owner := optAssign tgt.owner src.owner
    repo := optAssign tgt.repo src.repo
    maxAgeSeconds := optAssign tgt.maxAgeSeconds src.maxAgeSeconds
    backgroundRefresh := optAssign tgt.backgroundRefresh src.backgroundRefresh
    extras := mergeExtras tgt.extras src.extras }

/-- Cache policy (`cacheOptions` bags of the source). -/
structure CacheOptions where
  maxAgeSeconds : Option Nat := none
  backgroundRefresh : Bool := false
  individualMaxAgeSeconds : Option Nat := none
deriving Repr, DecidableEq

/-- An error value: a synchronous `throw` or a callback error that rejects
the promise chain. -/
inductive JsError where
  | thrown (msg : String)
  | rejected (msg : String)
deriving Repr, DecidableEq

/-- Per-organization options built by `getCrossOrganizationMethod`:
`Object.assign({}, options)`, then `localOptions.org = orgName`, then
`per_page` defaulted to `100` when falsy. -/
def buildLocalOptions (options : OptionsBag) (orgName : String) : OptionsBag :=
  let localOptions := { options with org := some orgName }
  if jsFalsyNat localOptions.per_page then { localOptions with per_page := some 100 }
  else localOptions

/-- Per-call cache options: `Object.assign({}, cacheOptions)`, then
`maxAgeSeconds` overwritten by `individualMaxAgeSeconds` when the latter is
truthy (absent and `0` are falsy and leave `maxAgeSeconds` untouched). -/
def buildLocalCacheOptions (cacheOptions : CacheOptions) : CacheOptions :=
  match cacheOptions.individualMaxAgeSeconds with
  | none => cacheOptions
  | some n => if n = 0 then cacheOptions else { cacheOptions with maxAgeSeconds := some n }

/-- Outcome of one per-organization method invocation, as observed by the
callback `(orgError, orgValues)` in `getCrossOrganizationMethod`:
a callback error, a falsy (`null`/`undefined`) result, or an envelope object
`orgValues`, which may carry a truthy nested `data` property. -/
inductive PerOrgCallResult (α : Type) where
  | err (msg : String)
  | missing
  | envelope (value : α) (nestedData : Option α)
deriving Repr, DecidableEq

/-- The merged fan-out value: per-organization payloads keyed by login,
in iteration order of the organization/token map. -/
structure CrossOrgEnvelope (α : Type) where
  orgs : List (String × α)
deriving Repr, DecidableEq

/-- Observable outcome of the fan-out: the resolved/rejected result, the
logins for which the per-organization method was actually invoked, and the
`console.warn` messages emitted. -/
structure FanOutOutcome (α : Type) where
  result : Except JsError (CrossOrgEnvelope α)
  calls : List String
  warnings : List String
deriving Repr

/-- The warning text logged when a per-organization envelope carries a
nested `data` property. -/
def dataWarning (apiName methodName : String) : String :=
  apiName ++ " " ++ methodName ++ " result has data that is being used instead of the parent object"

/-- The `async.eachOfLimit(orgsAndTokens, 1, ...)` loop of
`getCrossOrganizationMethod`: sequential over the `(login, token)` entries,
aborting (rejecting) at the first callback error or falsy result; an
envelope with a truthy nested `data` is warned about and its `data` is
stored under `orgs[login]` instead of the envelope itself. -/
def crossOrgLoop {α : Type} (method : String → OptionsBag → CacheOptions → PerOrgCallResult α)
    (apiName methodName : String) (options : OptionsBag) (cacheOptions : CacheOptions) :
    List (String × String) → FanOutOutcome α
  | [] => { result := .ok { orgs := [] }, calls := [], warnings := [] }
  | (orgName, token) :: rest =>
    let localOptions := buildLocalOptions options orgName
    let localCacheOptions := buildLocalCacheOptions cacheOptions
    match method token localOptions localCacheOptions with
    | .err msg => { result := .error (.rejected msg), calls := [orgName], warnings := [] }
    | .missing => { result := .error (.rejected "No result"), calls := [orgName], warnings := [] }
    | .envelope value nestedData =>
      let tail := crossOrgLoop method apiName methodName options cacheOptions rest
      match nestedData with
      | some d =>
        { result := tail.result.map (fun env => { orgs := (orgName, d) :: env.orgs })
          calls := orgName :: tail.calls
          warnings := dataWarning apiName methodName :: tail.warnings }
      | none =>
        { result := tail.result.map (fun env => { orgs := (orgName, value) :: env.orgs })
          calls := orgName :: tail.calls
          warnings := tail.warnings }

/-- `getCrossOrganizationMethod`: resolves `collectionsClient[methodName]`;
an unresolvable name throws immediately (note the source interpolates the
undefined `method` binding into the message, hence the literal `undefined`),
before any per-organization call; otherwise the fan-out loop runs. -/
def getCrossOrganizationMethodModel {α : Type}
    (collectionsClient : String → Option (String → OptionsBag → CacheOptions → PerOrgCallResult α))
    (apiName methodName : String) (orgsAndTokens : List (String × String))
    (options : OptionsBag) (cacheOptions : CacheOptions) : FanOutOutcome α :=
  match collectionsClient methodName with
  | none =>
    { result := .error (.thrown "No method called undefined defined in the collections client.")
      calls := []
      warnings := [] }
  | some method => crossOrgLoop method apiName methodName options cacheOptions orgsAndTokens

/-- The organization stamp object `{ login }`. -/
structure OrgLoginField where
  login : String
deriving Repr, DecidableEq

/-- An outer entity (a team or a repository) as consumed by the nested
aggregation: its recognized properties plus pass-through fields. -/
structure Entity where
  id : Option Nat := none
  name : Option String := none
  organization : Option OrgLoginField := none
  extras : List (String × String) := []
deriving Repr, DecidableEq

/-- `Object.assign(target, source)` for entities: source properties win. -/
def entityAssign (tgt src : Entity) : Entity :=
  { id := optAssign tgt.id src.id
    name := optAssign tgt.name src.name
    organization := optAssign tgt.organization src.organization
    extras := mergeExtras tgt.extras src.extras }

/-- The clone base of `crossOrganizationCollection`:
`{ organization: { login: orgName } }` when `optionalSetOrganizationLogin`
is set, `{}` otherwise. -/
def cloneTarget (setOrganizationLogin : Bool) (orgName : String) : Entity :=
  if setOrganizationLogin then { organization := some { login := orgName } } else {}

/-- `const entityClone = Object.assign(cloneTarget, orgEntity)`: the clone
base, overlaid with the entity's own properties. -/
def makeEntityClone (setOrganizationLogin : Bool) (orgName : String) (orgEntity : Entity) : Entity :=
  entityAssign (cloneTarget setOrganizationLogin orgName) orgEntity

/-- `localOptionsTarget` of the inner loop: `{ per_page: 100 }` extended per
`innerKeyType`; an unsupported key type synchronously throws. -/
def buildInnerOptionsTarget (innerKeyType orgName : String) (orgEntity : Entity) :
    Except JsError OptionsBag :=
  if innerKeyType = "team" then
    .ok { per_page := some 100, team_id := orgEntity.id }
  else if innerKeyType = "repo" then
    .ok { per_page := some 100, owner := some orgName, repo := orgEntity.name }
  else
    .error (.thrown ("Unsupported inner key type " ++ innerKeyType))

/-- `delete localOptions.maxAgeSeconds; delete localOptions.backgroundRefresh`. -/
def stripCachePolicyKeys (o : OptionsBag) : OptionsBag :=
  { o with maxAgeSeconds := none, backgroundRefresh := none }

/-- `orgName.toLowerCase()` on the ASCII logins of this module: lower-case
every character. -/
def jsToLowerCase (s : String) : String := String.mk (s.data.map Char.toLower)

/-- `orgsAndTokens[orgName.toLowerCase()]`: a property access with the
lower-cased referenced login as the key; registered keys are used as-is. -/
def tokenLookup (orgsAndTokens : List (String × String)) (orgName : String) : Option String :=
  (orgsAndTokens.find? (fun p => p.fst == jsToLowerCase orgName)).map (fun p => p.snd)

/-- Outcome of one inner (per-entity) collection call, as observed by the
callback `(collectionsError, innerEntities)`: a callback error, a falsy
result, or an envelope that may carry a truthy nested `data` property. -/
inductive InnerCallResult where
  | err (msg : String)
  | nullResult
  | envelope (value : List String) (nestedData : Option (List String))
deriving Repr, DecidableEq

/-- An aggregated output entity: the entity clone plus the dynamic
`entityClone[collectionKey] = innerEntities` property (`none` as the
attached value models a falsy `innerEntities` attached verbatim). -/
structure AggregatedEntity where
  id : Option Nat := none
  name : Option String := none
  organization : Option OrgLoginField := none
  extras : List (String × String) := []
  collectionField : Option (String × Option (List String)) := none
deriving Repr, DecidableEq

/-- `entityClone[collectionKey] = innerEntities` on a clone. -/
def attachCollection (e : Entity) (key : String) (value : Option (List String)) :
    AggregatedEntity :=
  { id := e.id, name := e.name, organization := e.organization, extras := e.extras
    collectionField := some (key, value) }

/-- Static configuration of one `crossOrganizationCollection` job. -/
structure CollectionConfig where
  innerKeyType : String
  collectionKey : String
  setOrganizationLogin : Bool
deriving Repr, DecidableEq

/-- The body of the inner (per-entity) loop of `crossOrganizationCollection`:
clone the entity, build the inner options (throwing on an unsupported
`innerKeyType`), merge the outer options over them and strip leaked cache
keys, resolve the token (a falsy token is a loop-aborting callback error),
invoke the inner collection method, and either swallow its error (dropping
the entity, `.ok none`), or attach the nested collection (`.ok (some _)`).
An envelope with a truthy nested `data` is converted to an error and
likewise swallowed. -/
def processEntity (innerCall : String → OptionsBag → CacheOptions → InnerCallResult)
    (cfg : CollectionConfig) (orgsAndTokens : List (String × String)) (options : OptionsBag)
    (localCacheOptions : CacheOptions) (orgName : String) (orgEntity : Entity) :
    Except JsError (Option AggregatedEntity) :=
  let entityClone := makeEntityClone cfg.setOrganizationLogin orgName orgEntity
  match buildInnerOptionsTarget cfg.innerKeyType orgName orgEntity with
  | .error e => .error e
  | .ok localOptionsTarget =>
    let localOptions := stripCachePolicyKeys (assignOptions localOptionsTarget options)
    let token := tokenLookup orgsAndTokens orgName
    if jsFalsyToken token then
      .error (.rejected ("No token available for the org \"" ++ orgName ++ "\""))
    else
      match innerCall (token.getD "") localOptions localCacheOptions with
      | .err _ => .ok none
      | .envelope _ (some _) => .ok none
      | .nullResult => .ok (some (attachCollection entityClone cfg.collectionKey none))
      | .envelope v none => .ok (some (attachCollection entityClone cfg.collectionKey (some v)))

/-- The sequential `async.eachLimit(orgEntities, 1, ...)` loop over one
organization's entities: pushed entities accumulate in discovery order,
hard errors abort. -/
def processEntities (innerCall : String → OptionsBag → CacheOptions → InnerCallResult)
    (cfg : CollectionConfig) (orgsAndTokens : List (String × String)) (options : OptionsBag)
    (localCacheOptions : CacheOptions) (orgName : String) :
    List Entity → Except JsError (List AggregatedEntity)
  | [] => .ok []
  | e :: rest =>
    match processEntity innerCall cfg orgsAndTokens options localCacheOptions orgName e with
    | .error err => .error err
    | .ok none => processEntities innerCall cfg orgsAndTokens options localCacheOptions orgName rest
    | .ok (some a) =>
      match processEntities innerCall cfg orgsAndTokens options localCacheOptions orgName rest with
      | .error err => .error err
      | .ok as => .ok (a :: as)

/-- The sequential outer `async.eachLimit(Object.getOwnPropertyNames(...orgs), 1, ...)`
loop across organizations. -/
def processOrgs (innerCall : String → OptionsBag → CacheOptions → InnerCallResult)
    (cfg : CollectionConfig) (orgsAndTokens : List (String × String)) (options : OptionsBag)
    (localCacheOptions : CacheOptions) :
    List (String × List Entity) → Except JsError (List AggregatedEntity)
  | [] => .ok []
  | (orgName, es) :: rest =>
    match processEntities innerCall cfg orgsAndTokens options localCacheOptions orgName es with
    | .error err => .error err
    | .ok xs =>
      match processOrgs innerCall cfg orgsAndTokens options localCacheOptions rest with
      | .error err => .error err
      | .ok ys => .ok (xs ++ ys)

/-- The outer fetch's outcome as observed by `crossOrganizationCollection`'s
callback `(outerError, data)`: an error, a truthy `data` without a `data.data`
property, or the per-organization entity lists (`data.data.orgs`). -/
inductive OuterResult where
  | err (msg : String)
  | noData
  | ok (orgsData : List (String × List Entity))
deriving Repr

/-- The resolved value `{ data: entities, ... }` of
`crossOrganizationCollection` (the `headers` placeholder carries no
information at this level; `cost` is never set on the entities array). -/
structure CollectionResult where
  data : List AggregatedEntity
deriving Repr, DecidableEq

/-- `crossOrganizationCollection`: reject on an outer error or on a missing
`data.data`; otherwise derive the per-call cache options once and run the
nested sequential loops, resolving with the flattened entity sequence. -/
def crossOrganizationCollectionModel
    (innerCall : String → OptionsBag → CacheOptions → InnerCallResult)
    (cfg : CollectionConfig) (orgsAndTokens : List (String × String)) (options : OptionsBag)
    (cacheOptions : CacheOptions) (outer : OuterResult) : Except JsError CollectionResult :=
  match outer with
  | .err msg => .error (.rejected msg)
  | .noData =>
    .error (.rejected
      "crossOrganizationCollection inner outerFunction returned an entity but no entity.data property was present")
  | .ok orgsData =>
    let localCacheOptions := buildLocalCacheOptions cacheOptions
    match processOrgs innerCall cfg orgsAndTokens options localCacheOptions orgsData with
    | .error e => .error e
    | .ok entities => .ok { data := entities }

/-- Modelled from the spec: the observable cache-policy state of the Cache
Execution Context's request (`CompositeApiContext`, whose defining module is
not among the sources here).  Per the spec's data model the context starts
with no cache policy applied: `backgroundRefresh` is unset (false) until the
adapter sets it, and `maxAgeSeconds` is whatever the adapter assigns. -/
structure CompositeApiContextModel where
  apiName : String
  maxAgeSeconds : Nat := 600
  backgroundRefresh : Bool := false
  token : String := ""
deriving Repr, DecidableEq

/-- The context construction performed by `generalizedCollectionMethod`:
`apiContext.maxAgeSeconds = cacheOptions.maxAgeSeconds || 600` (so an absent
or zero `maxAgeSeconds` becomes 600) and
`if (cacheOptions.backgroundRefresh) apiContext.backgroundRefresh = true`
(leaving the unset default otherwise). -/
def generalizedCollectionContext (token apiName : String) (cacheOptions : CacheOptions) :
    CompositeApiContextModel :=
  { apiName := apiName
    maxAgeSeconds :=
      match cacheOptions.maxAgeSeconds with
      | none => 600
      | some n => if n = 0 then 600 else n
    backgroundRefresh := if cacheOptions.backgroundRefresh then true else false
    token := token }

/-- The payload stored under `orgs[login]` for one per-organization call
outcome: the nested `data` when the envelope carries one, the envelope
itself otherwise, nothing on errors. -/
def perOrgStored {α : Type} : PerOrgCallResult α → Option α
  | .envelope _ (some d) => some d
  | .envelope v none => some v
  | .err _ => none
  | .missing => none

theorem except_map_error {ε α β : Type} (f : α → β) (e : ε) :
    (Except.error e : Except ε α).map f = .error e := rfl

theorem except_map_ok {ε α β : Type} (f : α → β) (a : α) :
    (Except.ok a : Except ε α).map f = .ok (f a) := rfl

theorem optAssign_none_left {α : Type} (src : Option α) : optAssign none src = src := by
  cases src <;> rfl

theorem optAssign_some_left {α : Type} (t : α) (src : Option α) :
    optAssign (some t) src = some (src.getD t) := by
  cases src <;> rfl

theorem mergeExtras_nil_left (src : List (String × String)) : mergeExtras [] src = src := by
  simp [mergeExtras]

/-- Claim C2: in the cross-organization fan-out, a per-organization error
aborts the whole fan-out with that error; no partial per-organization map is
returned, no matter how many organizations already succeeded. -/
theorem claim2_org_error_rejects_fanout {α : Type}
    (method : String → OptionsBag → CacheOptions → PerOrgCallResult α)
    (apiName methodName : String) (options : OptionsBag) (cacheOptions : CacheOptions)
    (pre : List (String × String)) (orgB tokB : String) (post : List (String × String))
    (msg : String)
    (hpre : ∀ p ∈ pre, ∃ v d,
      method p.snd (buildLocalOptions options p.fst) (buildLocalCacheOptions cacheOptions)
        = .envelope v d)
    (hfail : method tokB (buildLocalOptions options orgB) (buildLocalCacheOptions cacheOptions)
        = .err msg) :
    (crossOrgLoop method apiName methodName options cacheOptions
        (pre ++ (orgB, tokB) :: post)).result = .error (.rejected msg) := by
  induction pre with
  | nil => simp [crossOrgLoop, hfail]
  | cons p pre ih =>
    obtain ⟨pn, pt⟩ := p
    obtain ⟨v, d, hp⟩ := hpre (pn, pt) (List.mem_cons_self _ _)
    have hrest := ih (fun q hq => hpre q (List.mem_cons_of_mem _ hq))
    cases d <;> simp [crossOrgLoop, hp, hrest, except_map_error]

/-- Witness for C2: organization `a` succeeds, `b` fails, and the whole
fan-out is rejected with `b`'s error. -/
theorem claim2_witness :
    (crossOrgLoop
        (fun t _ _ => if t == "tA" then PerOrgCallResult.envelope (1 : Nat) none else .err "down")
        "teams" "getOrgTeams" {} {} ([("a", "tA")] ++ ("b", "tB") :: [])).result
      = .error (.rejected "down") := by
  apply claim2_org_error_rejects_fanout
  · intro p hp
    simp only [List.mem_singleton] at hp
    subst hp
    exact ⟨1, none, rfl⟩
  · rfl

/-- Claim C5: `generalizedCollectionMethod` applies the default
`maxAgeSeconds = 600` when the caller's cache policy omits one, and the
caller's `backgroundRefresh` flag is forwarded verbatim to the execution
context. -/
theorem claim5_default_max_age_and_background_refresh (token apiName : String)
    (cacheOptions : CacheOptions) (h : cacheOptions.maxAgeSeconds = none) :
    (generalizedCollectionContext token apiName cacheOptions).maxAgeSeconds = 600 ∧
    (generalizedCollectionContext token apiName cacheOptions).backgroundRefresh
      = cacheOptions.backgroundRefresh := by
  constructor
  · simp [generalizedCollectionContext, h]
  · simp [generalizedCollectionContext]

/-- Witness for C5 at a concrete cache policy with no `maxAgeSeconds` and
`backgroundRefresh` set. -/
theorem claim5_witness :
    (generalizedCollectionContext "tok" "teams" { backgroundRefresh := true }).maxAgeSeconds = 600 ∧
    (generalizedCollectionContext "tok" "teams" { backgroundRefresh := true }).backgroundRefresh
      = ({ backgroundRefresh := true : CacheOptions }).backgroundRefresh :=
  claim5_default_max_age_and_background_refresh "tok" "teams" { backgroundRefresh := true } rfl

/-- Claim C6: when every per-organization call succeeds, the fan-out
resolves; an envelope that unexpectedly carries a nested `data` field does
not fail the fan-out: its nested `data` is stored under `orgs[login]` in
place of the outer payload, and a warning is logged for it. -/
theorem claim6_nested_data_normalized_with_warning {α : Type}
    (method : String → OptionsBag → CacheOptions → PerOrgCallResult α)
    (apiName methodName : String) (options : OptionsBag) (cacheOptions : CacheOptions)
    (pairs : List (String × String))
    (hok : ∀ p ∈ pairs, ∃ v d,
      method p.snd (buildLocalOptions options p.fst) (buildLocalCacheOptions cacheOptions)
        = .envelope v d) :
    (crossOrgLoop method apiName methodName options cacheOptions pairs).result
      = .ok { orgs := pairs.filterMap (fun p =>
          (perOrgStored
            (method p.snd (buildLocalOptions options p.fst)
              (buildLocalCacheOptions cacheOptions))).map (fun x => (p.fst, x))) } ∧
    (crossOrgLoop method apiName methodName options cacheOptions pairs).warnings
      = pairs.filterMap (fun p =>
          match method p.snd (buildLocalOptions options p.fst)
              (buildLocalCacheOptions cacheOptions) with
          | .envelope _ (some _) => some (dataWarning apiName methodName)
          | _ => none) := by
  induction pairs with
  | nil => exact ⟨rfl, rfl⟩
  | cons p rest ih =>
    obtain ⟨pn, pt⟩ := p
    obtain ⟨v, d, hp⟩ := hok (pn, pt) (List.mem_cons_self _ _)
    obtain ⟨ih1, ih2⟩ := ih (fun q hq => hok q (List.mem_cons_of_mem _ hq))
    cases d <;>
      simp [crossOrgLoop, hp, ih1, ih2, perOrgStored, except_map_ok, List.filterMap_cons]

/-- Witness for C6: one organization whose envelope carries nested data;
the fan-out succeeds with the nested value stored and one warning logged. -/
theorem claim6_witness :
    (crossOrgLoop (fun _ _ _ => PerOrgCallResult.envelope (7 : Nat) (some 9))
        "teams" "getOrgTeams" {} {} [("a", "t")]).result = .ok { orgs := [("a", 9)] } ∧
    (crossOrgLoop (fun _ _ _ => PerOrgCallResult.envelope (7 : Nat) (some 9))
        "teams" "getOrgTeams" {} {} [("a", "t")]).warnings
      = [dataWarning "teams" "getOrgTeams"] := by
  have h := claim6_nested_data_normalized_with_warning
    (fun _ _ _ => PerOrgCallResult.envelope (7 : Nat) (some 9))
    "teams" "getOrgTeams" {} {} [("a", "t")]
    (by
      intro p hp
      exact ⟨7, some 9, rfl⟩)
  exact ⟨h.1, h.2⟩

/-- Claim C9: an unresolvable collection method name makes
`getCrossOrganizationMethod` throw a configuration error before any
per-organization fetch is attempted (the call list stays empty). -/
theorem claim9_unresolvable_method_rejected {α : Type}
    (collectionsClient :
      String → Option (String → OptionsBag → CacheOptions → PerOrgCallResult α))
    (apiName methodName : String) (orgsAndTokens : List (String × String))
    (options : OptionsBag) (cacheOptions : CacheOptions)
    (h : collectionsClient methodName = none) :
    (getCrossOrganizationMethodModel collectionsClient apiName methodName orgsAndTokens
        options cacheOptions).result
      = .error (.thrown "No method called undefined defined in the collections client.") ∧
    (getCrossOrganizationMethodModel collectionsClient apiName methodName orgsAndTokens
        options cacheOptions).calls = [] := by
  refine ⟨?_, ?_⟩ <;> simp [getCrossOrganizationMethodModel, h]

/-- Witness for C9 with an empty collections client. -/
theorem claim9_witness :
    (getCrossOrganizationMethodModel (α := Nat) (fun _ => none) "teams" "getOrgTeams"
        [("a", "t")] {} {}).result
      = .error (.thrown "No method called undefined defined in the collections client.") ∧
    (getCrossOrganizationMethodModel (α := Nat) (fun _ => none) "teams" "getOrgTeams"
        [("a", "t")] {} {}).calls = [] :=
  claim9_unresolvable_method_rejected (fun _ => none) "teams" "getOrgTeams" [("a", "t")] {} {} rfl

/-- Claim C10: a per-organization call that completes without error but
yields a falsy envelope makes the whole fan-out fail with `No result`; the
absent result is not treated as an empty contribution. -/
theorem claim10_missing_result_rejects_fanout {α : Type}
    (method : String → OptionsBag → CacheOptions → PerOrgCallResult α)
    (apiName methodName : String) (options : OptionsBag) (cacheOptions : CacheOptions)
    (pre : List (String × String)) (orgB tokB : String) (post : List (String × String))
    (hpre : ∀ p ∈ pre, ∃ v d,
      method p.snd (buildLocalOptions options p.fst) (buildLocalCacheOptions cacheOptions)
        = .envelope v d)
    (hmiss : method tokB (buildLocalOptions options orgB) (buildLocalCacheOptions cacheOptions)
        = .missing) :
    (crossOrgLoop method apiName methodName options cacheOptions
        (pre ++ (orgB, tokB) :: post)).result = .error (.rejected "No result") := by
  induction pre with
  | nil => simp [crossOrgLoop, hmiss]
  | cons p pre ih =>
    obtain ⟨pn, pt⟩ := p
    obtain ⟨v, d, hp⟩ := hpre (pn, pt) (List.mem_cons_self _ _)
    have hrest := ih (fun q hq => hpre q (List.mem_cons_of_mem _ hq))
    cases d <;> simp [crossOrgLoop, hp, hrest, except_map_error]

/-- Witness for C10: organization `a` succeeds, `b` returns a falsy
envelope, and the fan-out is rejected with `No result`. -/
theorem claim10_witness :
    (crossOrgLoop
        (fun t _ _ => if t == "tA" then PerOrgCallResult.envelope (1 : Nat) none else .missing)
        "teams" "getOrgTeams" {} {} ([("a", "tA")] ++ ("b", "tB") :: [])).result
      = .error (.rejected "No result") := by
  apply claim10_missing_result_rejects_fanout
  · intro p hp
    simp only [List.mem_singleton] at hp
    subst hp
    exact ⟨1, none, rfl⟩
  · rfl

/-- Claim C8: the output entity is a clone; with `annotateOrganizationLogin`
set, the clone starts from the `{organization: {login}}` base and the
entity's own fields are overlaid afterwards, so an entity's explicit
`organization` field wins over the stamped default; without the flag the
clone is just the entity's fields. -/
theorem claim8_clone_base_then_overlay (orgName : String) (orgEntity : Entity) :
    makeEntityClone true orgName orgEntity
      = { id := orgEntity.id, name := orgEntity.name
          organization := some (orgEntity.organization.getD { login := orgName })
          extras := orgEntity.extras } ∧
    makeEntityClone false orgName orgEntity
      = { id := orgEntity.id, name := orgEntity.name
          organization := orgEntity.organization, extras := orgEntity.extras } := by
  constructor <;>
    simp [makeEntityClone, entityAssign, cloneTarget, optAssign_none_left, optAssign_some_left,
      mergeExtras_nil_left]

theorem processEntity_bad_key
    (innerCall : String → OptionsBag → CacheOptions → InnerCallResult)
    (cfg : CollectionConfig) (orgsAndTokens : List (String × String)) (options : OptionsBag)
    (localCacheOptions : CacheOptions) (orgName : String) (e : Entity)
    (hk1 : cfg.innerKeyType ≠ "team") (hk2 : cfg.innerKeyType ≠ "repo") :
    processEntity innerCall cfg orgsAndTokens options localCacheOptions orgName e
      = .error (.thrown ("Unsupported inner key type " ++ cfg.innerKeyType)) := by
  simp [processEntity, buildInnerOptionsTarget, hk1, hk2]

theorem processOrgs_bad_key
    (innerCall : String → OptionsBag → CacheOptions → InnerCallResult)
    (cfg : CollectionConfig) (orgsAndTokens : List (String × String)) (options : OptionsBag)
    (localCacheOptions : CacheOptions)
    (hk1 : cfg.innerKeyType ≠ "team") (hk2 : cfg.innerKeyType ≠ "repo")
    (orgsData : List (String × List Entity)) (hne : ∃ p ∈ orgsData, p.snd ≠ []) :
    processOrgs innerCall cfg orgsAndTokens options localCacheOptions orgsData
      = .error (.thrown ("Unsupported inner key type " ++ cfg.innerKeyType)) := by
  induction orgsData with
  | nil => simp at hne
  | cons p rest ih =>
    obtain ⟨pn, es⟩ := p
    cases es with
    | nil =>
      have hrest : ∃ q ∈ rest, q.snd ≠ [] := by
        obtain ⟨q, hq, hq2⟩ := hne
        rw [List.mem_cons] at hq
        rcases hq with rfl | hq
        · exact absurd rfl hq2
        · exact ⟨q, hq, hq2⟩
      simp [processOrgs, processEntities, ih hrest]
    | cons e es' =>
      simp [processOrgs, processEntities,
        processEntity_bad_key innerCall cfg orgsAndTokens options localCacheOptions pn e hk1 hk2]

/-- Claim C4: inner call options are built per `innerKeyType` (`team` gives
`{team_id: entity.id}`, `repo` gives `{owner: login, repo: entity.name}`,
each over the `per_page: 100` base), and any other `innerKeyType` value
makes the pipeline fail with a synchronously thrown configuration error at
the first entity reached — regardless of the inner collection client and
with no per-entity swallowing or per-entity repetition of the error. -/
theorem claim4_inner_key_type_fail_fast
    (cfg : CollectionConfig) (innerCall : String → OptionsBag → CacheOptions → InnerCallResult)
    (orgsAndTokens : List (String × String)) (options : OptionsBag)
    (cacheOptions : CacheOptions) (orgsData : List (String × List Entity))
    (orgName : String) (e : Entity)
    (hk1 : cfg.innerKeyType ≠ "team") (hk2 : cfg.innerKeyType ≠ "repo")
    (hne : ∃ p ∈ orgsData, p.snd ≠ []) :
    buildInnerOptionsTarget "team" orgName e
      = .ok { per_page := some 100, team_id := e.id } ∧
    buildInnerOptionsTarget "repo" orgName e
      = .ok { per_page := some 100, owner := some orgName, repo := e.name } ∧
    crossOrganizationCollectionModel innerCall cfg orgsAndTokens options cacheOptions
        (.ok orgsData)
      = .error (.thrown ("Unsupported inner key type " ++ cfg.innerKeyType)) := by
  refine ⟨rfl, ?_, ?_⟩
  · simp [buildInnerOptionsTarget]
  · have h := processOrgs_bad_key innerCall cfg orgsAndTokens options
      (buildLocalCacheOptions cacheOptions) hk1 hk2 orgsData hne
    simp [crossOrganizationCollectionModel, h]

/-- Witness for C4 at a concrete unsupported key type `x` with one entity. -/
theorem claim4_witness :
    buildInnerOptionsTarget "team" "a" { id := some 5 }
      = .ok { per_page := some 100, team_id := some 5 } ∧
    buildInnerOptionsTarget "repo" "a" { id := some 5 }
      = .ok { per_page := some 100, owner := some "a", repo := none } ∧
    crossOrganizationCollectionModel (fun _ _ _ => InnerCallResult.nullResult)
        ⟨"x", "k", false⟩ [] {} {} (.ok [("a", [{}])])
      = .error (.thrown "Unsupported inner key type x") := by
  have h := claim4_inner_key_type_fail_fast ⟨"x", "k", false⟩
    (fun _ _ _ => InnerCallResult.nullResult) [] {} {} [("a", [{}])] "a" { id := some 5 }
    (by decide) (by decide) ⟨("a", [{}]), by simp, by simp⟩
  exact h

theorem processEntities_all_soft
    (innerCall : String → OptionsBag → CacheOptions → InnerCallResult)
    (cfg : CollectionConfig) (orgsAndTokens : List (String × String)) (options : OptionsBag)
    (localCacheOptions : CacheOptions) (orgName : String) (es : List Entity)
    (hyp : ∀ e ∈ es, ∃ r,
      processEntity innerCall cfg orgsAndTokens options localCacheOptions orgName e = .ok r) :
    processEntities innerCall cfg orgsAndTokens options localCacheOptions orgName es
      = .ok (es.filterMap (fun e =>
          match processEntity innerCall cfg orgsAndTokens options localCacheOptions orgName e with
          | .ok r => r
          | .error _ => none)) := by
  induction es with
  | nil => rfl
  | cons e rest ih =>
    obtain ⟨r, hr⟩ := hyp e (List.mem_cons_self _ _)
    have h2 := ih (fun q hq => hyp q (List.mem_cons_of_mem _ hq))
    cases r <;> simp [processEntities, hr, h2, List.filterMap_cons]

theorem processOrgs_all_soft
    (innerCall : String → OptionsBag → CacheOptions → InnerCallResult)
    (cfg : CollectionConfig) (orgsAndTokens : List (String × String)) (options : OptionsBag)
    (localCacheOptions : CacheOptions) (orgsData : List (String × List Entity))
    (hyp : ∀ p ∈ orgsData, ∀ e ∈ p.snd, ∃ r,
      processEntity innerCall cfg orgsAndTokens options localCacheOptions p.fst e = .ok r) :
    processOrgs innerCall cfg orgsAndTokens options localCacheOptions orgsData
      = .ok (orgsData.flatMap (fun p => p.snd.filterMap (fun e =>
          match processEntity innerCall cfg orgsAndTokens options localCacheOptions p.fst e with
          | .ok r => r
          | .error _ => none))) := by
  induction orgsData with
  | nil => rfl
  | cons p rest ih =>
    obtain ⟨pn, es⟩ := p
    have h1 := processEntities_all_soft innerCall cfg orgsAndTokens options localCacheOptions pn es
      (fun e he => hyp (pn, es) (List.mem_cons_self _ _) e he)
    have h2 := ih (fun q hq e he => hyp q (List.mem_cons_of_mem _ hq) e he)
    simp [processOrgs, h1, h2]

/-- Counterexample to C1 as stated: the outer listing discovers two team
entities under `alpha`; the inner fetch for the first fails while the
sibling succeeds.  No error is raised, but the output sequence holds only
the one successful entity — the failed entity is omitted entirely rather
than included without its nested `members` field. -/
theorem claim1_counterexample :
    crossOrganizationCollectionModel
        (fun _ opts _ =>
          if opts.team_id == some 1 then .err "boom" else .envelope ["m1"] none)
        ⟨"team", "members", true⟩ [("alpha", "tokA")] {} {}
        (.ok [("alpha", [{ id := some 1 }, { id := some 2 }])])
      = .ok { data := [{ id := some 2, organization := some { login := "alpha" },
                         collectionField := some ("members", some ["m1"]) }] } ∧
    ([{ id := some 1 }, { id := some 2 }] : List Entity).length = 2 ∧
    ([{ id := some 2, organization := some { login := "alpha" },
        collectionField := some ("members", some ["m1"]) }] : List AggregatedEntity).length
      = 1 :=
  ⟨rfl, rfl, rfl⟩

/-- Claim C1 (amended): when no hard (throwing/aborting) error occurs, the
pipeline resolves without raising any error; an entity whose inner fetch
failed is silently dropped from the output, and the output sequence is
exactly the successful entities, in discovery order. -/
theorem claim1_inner_error_swallowed_entity_omitted
    (innerCall : String → OptionsBag → CacheOptions → InnerCallResult)
    (cfg : CollectionConfig) (orgsAndTokens : List (String × String)) (options : OptionsBag)
    (cacheOptions : CacheOptions) (orgsData : List (String × List Entity))
    (hyp : ∀ p ∈ orgsData, ∀ e ∈ p.snd, ∃ r,
      processEntity innerCall cfg orgsAndTokens options (buildLocalCacheOptions cacheOptions)
        p.fst e = .ok r) :
    crossOrganizationCollectionModel innerCall cfg orgsAndTokens options cacheOptions
        (.ok orgsData)
      = .ok { data := orgsData.flatMap (fun p => p.snd.filterMap (fun e =>
          match processEntity innerCall cfg orgsAndTokens options
              (buildLocalCacheOptions cacheOptions) p.fst e with
          | .ok r => r
          | .error _ => none)) } := by
  have h := processOrgs_all_soft innerCall cfg orgsAndTokens options
    (buildLocalCacheOptions cacheOptions) orgsData hyp
  simp [crossOrganizationCollectionModel, h]

/-- Witness for amended C1 at the two-entity scenario: the failing entity is
dropped, the sibling is kept, no error is raised. -/
theorem claim1_witness :
    crossOrganizationCollectionModel
        (fun _ opts _ =>
          if opts.team_id == some 1 then .err "boom" else .envelope ["m1"] none)
        ⟨"team", "members", true⟩ [("alpha", "tok")] {} {}
        (.ok [("alpha", [{ id := some 1 }, { id := some 2 }])])
      = .ok { data := [{ id := some 2, organization := some { login := "alpha" },
                         collectionField := some ("members", some ["m1"]) }] } := by
  have h := claim1_inner_error_swallowed_entity_omitted
    (fun _ opts _ =>
      if opts.team_id == some 1 then .err "boom" else .envelope ["m1"] none)
    ⟨"team", "members", true⟩ [("alpha", "tok")] {} {}
    [("alpha", [{ id := some 1 }, { id := some 2 }])]
    (by
      intro p hp e he
      simp only [List.mem_singleton] at hp
      subst hp
      simp only [List.mem_cons, List.not_mem_nil, or_false] at he
      rcases he with rfl | rfl
      · exact ⟨none, rfl⟩
      · exact ⟨_, rfl⟩)
  rw [h]
  rfl

/-- Counterexample to C3 as stated: a token registered for `Contoso` (the
only entry of the token set) is NOT found when the fan-out references the
organization login `contoso` — the lookup lower-cases only the referenced
login, not the registered key — and the run aborts with the missing-token
error. -/
theorem claim3_counterexample :
    tokenLookup [("Contoso", "tok")] "contoso" = none ∧
    crossOrganizationCollectionModel (fun _ _ _ => InnerCallResult.envelope [] none)
        ⟨"team", "members", true⟩ [("Contoso", "tok")] {} {}
        (.ok [("contoso", [{ id := some 1 }])])
      = .error (.rejected "No token available for the org \"contoso\"") :=
  ⟨rfl, rfl⟩

/-- Claim C3 (amended): token lookup lower-cases the referenced login, so
two referenced logins equal up to case resolve to the same token, but the
token must be registered under the exact lower-cased key; a missing (or
empty) token for a referenced organization is a hard error that aborts the
entity loop with the missing-token message. -/
theorem claim3_lowercased_reference_lookup (orgsAndTokens : List (String × String))
    (l l' : String) (hcase : jsToLowerCase l = jsToLowerCase l')
    (innerCall : String → OptionsBag → CacheOptions → InnerCallResult)
    (cfg : CollectionConfig) (options : OptionsBag) (cacheOptions : CacheOptions)
    (orgName : String) (e : Entity) (es : List Entity) (rest : List (String × List Entity))
    (hkey : cfg.innerKeyType = "team")
    (htok : jsFalsyToken (tokenLookup orgsAndTokens orgName) = true) :
    tokenLookup orgsAndTokens l = tokenLookup orgsAndTokens l' ∧
    crossOrganizationCollectionModel innerCall cfg orgsAndTokens options cacheOptions
        (.ok ((orgName, e :: es) :: rest))
      = .error (.rejected ("No token available for the org \"" ++ orgName ++ "\"")) := by
  constructor
  · simp [tokenLookup, hcase]
  · have hpe : processEntity innerCall cfg orgsAndTokens options
        (buildLocalCacheOptions cacheOptions) orgName e
        = .error (.rejected ("No token available for the org \"" ++ orgName ++ "\"")) := by
      simp [processEntity, buildInnerOptionsTarget, hkey, htok]
    simp [crossOrganizationCollectionModel, processOrgs, processEntities, hpe]

/-- Witness for amended C3: referencing `Contoso` and `contoso` resolve to
the same lower-case-registered token, and a login registered nowhere aborts
the run with the missing-token error. -/
theorem claim3_witness :
    tokenLookup [("contoso", "tok")] "Contoso" = tokenLookup [("contoso", "tok")] "contoso" ∧
    crossOrganizationCollectionModel (fun _ _ _ => InnerCallResult.envelope [] none)
        ⟨"team", "members", true⟩ [("contoso", "tok")] {} {}
        (.ok (("Nowhere", [{ id := some 1 }]) :: []))
      = .error (.rejected "No token available for the org \"Nowhere\"") := by
  have h := claim3_lowercased_reference_lookup [("contoso", "tok")] "Contoso" "contoso" rfl
    (fun _ _ _ => InnerCallResult.envelope [] none) ⟨"team", "members", true⟩ {} {}
    "Nowhere" { id := some 1 } [] [] rfl rfl
  exact h

/-- Counterexample to C7 as stated: a cache policy carrying
`individualMaxAgeSeconds = 0` (present, but falsy in JS) does NOT have it
applied: the per-organization call observes the original
`maxAgeSeconds = 42`, not `0`. -/
theorem claim7_counterexample :
    (crossOrgLoop (fun _ _ lco => PerOrgCallResult.envelope lco.maxAgeSeconds none)
        "api" "method" {} { maxAgeSeconds := some 42, individualMaxAgeSeconds := some 0 }
        [("contoso", "t")]).result
      = .ok { orgs := [("contoso", some 42)] } ∧
    ({ maxAgeSeconds := some 42, individualMaxAgeSeconds := some 0
        : CacheOptions }).individualMaxAgeSeconds = some 0 ∧
    (some 42 : Option Nat) ≠ some 0 :=
  ⟨rfl, rfl, by decide⟩

/-- Claim C7 (amended): each per-organization call gets a clone of the
options template with `org` set to the login, `per_page` defaulted to 100
when unset, and every other recognized key (and the pass-through keys)
preserved; and a present, nonzero `individualMaxAgeSeconds` is used as that
call's `maxAgeSeconds` while the rest of the cache policy is preserved.
(The originals are never written to: both functions build fresh values, the
embedding of `Object.assign({}, ...)` into fresh targets.) -/
theorem claim7_percall_options_and_cache_policy (options : OptionsBag)
    (cacheOptions : CacheOptions) (login : String) (k : Nat)
    (hk : k ≠ 0) (hpp : options.per_page = none)
    (hind : cacheOptions.individualMaxAgeSeconds = some k) :
    (buildLocalOptions options login).org = some login ∧
    (buildLocalOptions options login).per_page = some 100 ∧
    (buildLocalOptions options login).team_id = options.team_id ∧
    (buildLocalOptions options login).owner = options.owner ∧
    (buildLocalOptions options login).repo = options.repo ∧
    (buildLocalOptions options login).extras = options.extras ∧
    (buildLocalCacheOptions cacheOptions).maxAgeSeconds = some k ∧
    (buildLocalCacheOptions cacheOptions).backgroundRefresh
      = cacheOptions.backgroundRefresh ∧
    (buildLocalCacheOptions cacheOptions).individualMaxAgeSeconds = some k := by
  refine ⟨?_, ?_, ?_, ?_, ?_, ?_, ?_, ?_, ?_⟩ <;>
    simp [buildLocalOptions, buildLocalCacheOptions, hpp, hind, hk, jsFalsyNat]

/-- Witness for amended C7 at a concrete template and cache policy. -/
theorem claim7_witness :
    (buildLocalOptions {} "contoso").org = some "contoso" ∧
    (buildLocalOptions {} "contoso").per_page = some 100 ∧
    (buildLocalOptions {} "contoso").team_id = ({} : OptionsBag).team_id ∧
    (buildLocalOptions {} "contoso").owner = ({} : OptionsBag).owner ∧
    (buildLocalOptions {} "contoso").repo = ({} : OptionsBag).repo ∧
    (buildLocalOptions {} "contoso").extras = ({} : OptionsBag).extras ∧
    (buildLocalCacheOptions { individualMaxAgeSeconds := some 300 }).maxAgeSeconds = some 300 ∧
    (buildLocalCacheOptions { individualMaxAgeSeconds := some 300 }).backgroundRefresh
      = ({ individualMaxAgeSeconds := some 300 : CacheOptions }).backgroundRefresh ∧
    (buildLocalCacheOptions { individualMaxAgeSeconds := some 300 }).individualMaxAgeSeconds
      = some 300 :=
  claim7_percall_options_and_cache_policy {} { individualMaxAgeSeconds := some 300 }
    "contoso" 300 (by decide) rfl rfl

end Portal
